import Mathlib

/-!
Verification of the student-enrollment system's timetable conflict-detection
and atomic-enrollment core, as a shallow embedding of the JavaScript services
(`src/services/enrollment.service.js`, `src/services/admin.service.js`).

Modelling conventions:
* Stored `DateTime` values (JS `Date` columns produced by
  `DateTime.fromFormat(str, 'HH:mm').toJSDate()`) are modelled as natural
  numbers counting minutes since a fixed local epoch midnight: a value
  anchored on calendar day `d` at time-of-day `m` minutes is `d * 1440 + m`.
  Extracting `hour * 60 + minute` from such a value is `t % 1440`.
* Request-side `HH:mm` strings are modelled as their parsed minutes-since-
  midnight value (the validator guarantees a valid `HH:mm` parse).
* The Prisma store is a `DB` record of plain lists of rows; `findUnique`,
  `findMany` and `include` joins become `List.find?` / `List.filter` /
  `filterMap` over those lists, and `createMany` appends rows.
* Thrown `Error` / `AppError` values become `Except`-style error results;
  every service function returns the resulting `DB` alongside, so that
  "no row was written" is expressible as the state being returned unchanged.
The spec (§9) fixes the atomic all-or-nothing `enrollInCourses` variant as
the authoritative one; that is the variant embedded here.  The older
non-atomic helper `checkTimetableConflictsHelper` is also embedded because
the comparison rule at that call site is the subject of a claim.
-/

namespace Enroll

/-- A time value as it reaches a comparison site: either a request-side
`HH:mm` string (already parsed to minutes since midnight) or a stored
`Date` column (absolute minutes since the local epoch midnight). -/
inductive TimeVal where
  | str (m : Nat)
  | date (t : Nat)
deriving DecidableEq, Repr

/-- `timeToMinutes` from `admin.service.js`: `DateTime.fromFormat(s,'HH:mm')`
on a string, `DateTime.fromJSDate` on a Date, then `hour * 60 + minute`. -/
def timeToMinutes : TimeVal → Nat
  | .str m => m
  | .date t => t % 1440

/-- Two-digit zero padding, as in Luxon's `HH` / `mm` format tokens. -/
def pad2 (n : Nat) : String :=
  if n < 10 then "0" ++ toString n else toString n

/-- Render minutes-since-midnight as an `HH:mm` string. -/
def fmtHM (m : Nat) : String :=
  pad2 (m / 60) ++ ":" ++ pad2 (m % 60)

/-- `formatTime` from `admin.service.js`: format a stored Date as `HH:mm`. -/
def formatTime (t : Nat) : String :=
  fmtHM (t % 1440)

/-- `getDayName` from `admin.service.js`: `days[dayOfWeek - 1]`. -/
def getDayName (dayOfWeek : Nat) : String :=
  if dayOfWeek = 0 then "undefined"
  else
    ["Monday", "Tuesday", "Wednesday", "Thursday", "Friday", "Saturday",
     "Sunday"].getD (dayOfWeek - 1) "undefined"

/-- A slot as compared by `compareTimeSlots`: `dayOfWeek` plus two time
values that may each be a request string or a stored Date. -/
structure GenSlot where
  dayOfWeek : Nat
  startTime : TimeVal
  endTime : TimeVal
deriving DecidableEq, Repr

/-- The `{isIdentical, overlaps}` record returned by `compareTimeSlots`. -/
structure CmpResult where
  isIdentical : Bool
  overlaps : Bool
deriving DecidableEq, Repr

/-- `compareTimeSlots` from `admin.service.js` lines 60-74: different days
never compare; otherwise both times are normalized to minutes since
midnight and `isIdentical = (s1 == s2 && e1 == e2)`,
`overlaps = (s1 < e2 && s2 < e1)`. -/
def compareTimeSlots (slot1 slot2 : GenSlot) : CmpResult :=
  if slot1.dayOfWeek ≠ slot2.dayOfWeek then ⟨false, false⟩
  else
    let start1 := timeToMinutes slot1.startTime
    let end1 := timeToMinutes slot1.endTime
    let start2 := timeToMinutes slot2.startTime
    let end2 := timeToMinutes slot2.endTime
    ⟨decide (start1 = start2) && decide (end1 = end2),
     decide (start1 < end2) && decide (start2 < end1)⟩

/-! ## Data model (Prisma rows) -/

/-- A `Student` row (with the `User` link collapsed to `userId`). -/
structure StudentRec where
  id : Nat
  userId : Nat
  name : String
  studentNumber : String
  collegeId : Nat
deriving DecidableEq, Repr

/-- A `Course` row. -/
structure Course where
  id : Nat
  code : String
  name : String
  collegeId : Nat
deriving DecidableEq, Repr

/-- A `Timetable` row: stored times are absolute minutes (see header).
`id` is the primary key used by the single-slot update path; rows created
by `createTimetableSlots` get their id from the database's auto-increment,
which no claim observes, so the model assigns those rows id 0. -/
structure TimetableRow where
  id : Nat
  courseId : Nat
  dayOfWeek : Nat
  startTime : Nat
  endTime : Nat
deriving DecidableEq, Repr

/-- An `Enrollment` row. -/
structure EnrollmentRow where
  studentId : Nat
  courseId : Nat
deriving DecidableEq, Repr

/-- A `CollegeAdmin` row. -/
structure AdminRec where
  userId : Nat
  collegeId : Nat
deriving DecidableEq, Repr

/-- The store. -/
structure DB where
  students : List StudentRec
  courses : List Course
  timetables : List TimetableRow
  enrollments : List EnrollmentRow
  admins : List AdminRec
deriving DecidableEq, Repr

/-- The `include: { timetables: true }` join for one course. -/
def courseTimetables (db : DB) (courseId : Nat) : List TimetableRow :=
  db.timetables.filter (fun t => t.courseId == courseId)

/-- A course together with its joined timetable rows, as the service
functions receive it from Prisma. -/
structure CourseT where
  id : Nat
  code : String
  name : String
  collegeId : Nat
  timetables : List TimetableRow
deriving DecidableEq, Repr

/-- Attach the timetable join to a course row. -/
def withTT (db : DB) (c : Course) : CourseT :=
  ⟨c.id, c.code, c.name, c.collegeId, courseTimetables db c.id⟩

/-! ## Conflict detection (enrollment service) -/

/-- One element of the flattened interval lists built inside
`findTimetableConflicts`: a Luxon `Interval` (raw stored endpoints) plus
`dayOfWeek` and the owning course's code. -/
structure IntervalSlot where
  startT : Nat
  endT : Nat
  dayOfWeek : Nat
  courseCode : String
deriving DecidableEq, Repr, Inhabited

/-- The per-pair test in `findTimetableConflicts`:
`slotA.dayOfWeek === slotB.dayOfWeek && slotA.interval.overlaps(slotB.interval)`,
where Luxon's `overlaps` is `this.e > other.s && this.s < other.e` on the
raw stored values. -/
def slotClashB (a b : IntervalSlot) : Bool :=
  a.dayOfWeek == b.dayOfWeek && decide (b.startT < a.endT)
    && decide (a.startT < b.endT)

/-- The `kind` of a conflict record. -/
inductive ConflictType where
  | INTERNAL
  | EXTERNAL
deriving DecidableEq, Repr

/-- A conflict record pushed by `findTimetableConflicts`. -/
structure Conflict where
  type : ConflictType
  message : String
deriving DecidableEq, Repr

/-- The INTERNAL conflict record for a clashing pair of requested slots. -/
def mkInternal (a b : IntervalSlot) : Conflict :=
  ⟨.INTERNAL,
   "Requested course " ++ a.courseCode ++ " clashes with requested course "
     ++ b.courseCode ++ "."⟩

/-- The EXTERNAL conflict record for a requested slot clashing with an
already enrolled course's slot. -/
def mkExternal (a b : IntervalSlot) : Conflict :=
  ⟨.EXTERNAL,
   "Requested course " ++ a.courseCode
     ++ " clashes with already enrolled course " ++ b.courseCode ++ "."⟩

/-- Phase 1 of `findTimetableConflicts` (lines 238-250): the
`for i; for j = i+1` double loop over the flattened new intervals,
pushing one INTERNAL record per clashing pair, in iteration order. -/
def internalConflicts : List IntervalSlot → List Conflict
  | [] => []
  | a :: rest =>
    ((rest.filter (fun b => slotClashB a b)).map (fun b => mkInternal a b))
      ++ internalConflicts rest

/-- Phase 2 of `findTimetableConflicts` (lines 253-262): full cross product
of new intervals against existing intervals, in iteration order. -/
def externalConflicts (newIntervals existingIntervals : List IntervalSlot) :
    List Conflict :=
  newIntervals.flatMap (fun a =>
    (existingIntervals.filter (fun b => slotClashB a b)).map
      (fun b => mkExternal a b))

/-- Flatten a list of courses-with-timetables into interval slots, as the
two `flatMap` expressions in `findTimetableConflicts` do. -/
def flatIntervals (courses : List CourseT) : List IntervalSlot :=
  courses.flatMap (fun c =>
    c.timetables.map (fun s => ⟨s.startTime, s.endTime, s.dayOfWeek, c.code⟩))

/-- `findTimetableConflicts` from `enrollment.service.js` lines 216-265. -/
def findTimetableConflicts (existingCourses newCourses : List CourseT) :
    List Conflict :=
  let existingIntervals := flatIntervals existingCourses
  let newIntervals := flatIntervals newCourses
  internalConflicts newIntervals
    ++ externalConflicts newIntervals existingIntervals

/-! ## The older non-atomic helper's comparison (lines 17-47) -/

/-- A conflict record pushed by `checkTimetableConflictsHelper`. -/
structure HelperConflict where
  newCourseId : Nat
  newCourseCode : String
  existingCourseId : Nat
  existingCourseCode : String
  day : String
  conflictTime : String
deriving DecidableEq, Repr

/-- `checkTimetableConflictsHelper` from `enrollment.service.js` lines
17-47: nested loops over new courses' slots against existing courses'
slots; on the same `dayOfWeek` it compares the raw stored `DateTime`
values with `newStart < existingEnd && existingStart < newEnd`. -/
def checkTimetableConflictsHelper (existingCourses newCourses : List CourseT) :
    List HelperConflict :=
  newCourses.flatMap (fun newCourse =>
    newCourse.timetables.flatMap (fun newSlot =>
      existingCourses.flatMap (fun existingCourse =>
        existingCourse.timetables.filterMap (fun existingSlot =>
          if newSlot.dayOfWeek = existingSlot.dayOfWeek
              ∧ newSlot.startTime < existingSlot.endTime
              ∧ existingSlot.startTime < newSlot.endTime then
            some ⟨newCourse.id, newCourse.code, existingCourse.id,
                  existingCourse.code, getDayName newSlot.dayOfWeek,
                  fmtHM (newSlot.startTime % 1440) ++ "-"
                    ++ fmtHM (newSlot.endTime % 1440) ++ " overlaps with "
                    ++ fmtHM (existingSlot.startTime % 1440) ++ "-"
                    ++ fmtHM (existingSlot.endTime % 1440)⟩
          else none))))

/-! ## Atomic enrollment (enrollment.service.js lines 276-348) -/

/-- The typed errors `enrollInCourses` can throw. -/
inductive AppError where
  | studentNotFound
  | coursesNotFound (notFoundIds : List Nat)
  | collegeMismatch
  | timetableClash (conflicts : List Conflict)
deriving DecidableEq, Repr

/-- One entry of the returned `enrolled` list. -/
structure EnrolledCourse where
  courseId : Nat
  courseCode : String
  courseName : String
deriving DecidableEq, Repr

/-- The success payload of `enrollInCourses`. -/
structure EnrollResult where
  enrolled : List EnrolledCourse
  message : Option String
deriving DecidableEq, Repr

/-- `prisma.student.findUnique({ where: { userId } })`. -/
def findStudent (db : DB) (userId : Nat) : Option StudentRec :=
  db.students.find? (fun s => s.userId == userId)

/-- `prisma.course.findMany({ where: { id: { in: courseIds } } })`:
each stored course whose id occurs in the request, once, in store order. -/
def requestedCoursesOf (db : DB) (courseIds : List Nat) : List Course :=
  db.courses.filter (fun c => courseIds.contains c.id)

/-- `notFoundIds = courseIds.filter(id => !foundIds.has(id))`. -/
def notFoundIdsOf (db : DB) (courseIds : List Nat) : List Nat :=
  let foundIds := (requestedCoursesOf db courseIds).map (fun c => c.id)
  courseIds.filter (fun id => !(foundIds.contains id))

/-- The ids of the student's current enrollments. -/
def enrolledIdsOf (db : DB) (st : StudentRec) : List Nat :=
  (db.enrollments.filter (fun e => e.studentId == st.id)).map
    (fun e => e.courseId)

/-- `requestedCourses.filter(c => !currentlyEnrolledIds.has(c.id))`. -/
def newCoursesOf (db : DB) (st : StudentRec) (courseIds : List Nat) :
    List Course :=
  (requestedCoursesOf db courseIds).filter
    (fun c => !((enrolledIdsOf db st).contains c.id))

/-- `student.enrollments.map(e => e.course)` with the timetable join. -/
def existingCoursesOf (db : DB) (st : StudentRec) : List CourseT :=
  ((db.enrollments.filter (fun e => e.studentId == st.id)).filterMap
    (fun e => db.courses.find? (fun c => c.id == e.courseId))).map (withTT db)

/-- The merged conflict list `enrollInCourses` computes for a request:
`findTimetableConflicts(existingCourses, newCoursesToEnroll)`. -/
def enrollConflicts (db : DB) (st : StudentRec) (courseIds : List Nat) :
    List Conflict :=
  findTimetableConflicts (existingCoursesOf db st)
    ((newCoursesOf db st courseIds).map (withTT db))

/-- `enrollInCourses` from `enrollment.service.js` lines 276-348 (the
atomic VALIDATE → CHECK → COMMIT variant the spec fixes as authoritative).
Returns the resulting store alongside the result, so an error result with
the store unchanged is exactly "no enrollment row was written". -/
def enrollInCourses (db : DB) (userId : Nat) (courseIds : List Nat) :
    DB × Except AppError EnrollResult :=
  match findStudent db userId with
  | none => (db, .error .studentNotFound)
  | some student =>
    let requestedCourses := requestedCoursesOf db courseIds
    if requestedCourses.length ≠ courseIds.length then
      (db, .error (.coursesNotFound (notFoundIdsOf db courseIds)))
    else if (requestedCourses.find?
        (fun c => c.collegeId ≠ student.collegeId)).isSome then
      (db, .error .collegeMismatch)
    else
      let newCoursesToEnroll := newCoursesOf db student courseIds
      if newCoursesToEnroll.isEmpty then
        (db, .ok { enrolled := [],
                   message := some "All requested courses are already enrolled." })
      else
        let conflicts := enrollConflicts db student courseIds
        if conflicts.isEmpty then
          ({ db with enrollments := db.enrollments
              ++ newCoursesToEnroll.map (fun c => ⟨student.id, c.id⟩) },
           .ok { enrolled := newCoursesToEnroll.map
                   (fun c => ⟨c.id, c.code, c.name⟩),
                 message := none })
        else
          (db, .error (.timetableClash conflicts))

/-! ## Admin service: timetable slot creation (admin.service.js) -/

/-- A proposed slot as the admin HTTP layer delivers it: `dayOfWeek`
plus `HH:mm` strings (modelled by their parsed minute values). -/
structure ReqSlot where
  dayOfWeek : Nat
  startTime : Nat
  endTime : Nat
deriving DecidableEq, Repr

/-- View a proposed (string-typed) slot as `compareTimeSlots` input. -/
def reqToGen (s : ReqSlot) : GenSlot :=
  ⟨s.dayOfWeek, .str s.startTime, .str s.endTime⟩

/-- View a stored timetable row as `compareTimeSlots` input. -/
def rowToGen (r : TimetableRow) : GenSlot :=
  ⟨r.dayOfWeek, .date r.startTime, .date r.endTime⟩

/-- One entry of the `conflicts` detail list built by
`checkStudentConflicts`. -/
structure StudentConflict where
  studentId : Nat
  studentName : String
  studentNumber : String
  conflictingCourse : String
  message : String
deriving DecidableEq, Repr

/-- The errors the admin timetable mutation paths can throw.
`adminRecordMissing` models the TypeError the update path raises by
dereferencing a null `collegeAdmin` record (the role middleware prevents
it in practice). -/
inductive AdminError where
  | courseNotFound
  | duplicateSlot (msg : String)
  | timeConflict (msg : String)
  | duplicateInRequest (msg : String)
  | timetableUpdateConflict (conflicts : List StudentConflict)
  | timetableSlotNotFound
  | collegeAccessDenied
  | adminRecordMissing
deriving DecidableEq, Repr

/-- The duplicate-slot message (admin.service.js lines 106-109). -/
def dupMsg (s : ReqSlot) : String :=
  "Timetable slot already exists on " ++ getDayName s.dayOfWeek
    ++ " from " ++ fmtHM s.startTime ++ " to " ++ fmtHM s.endTime

/-- The overlap-conflict message (admin.service.js lines 113-117). -/
def conflictMsg (s : ReqSlot) (e : TimetableRow) : String :=
  "Time conflict on " ++ getDayName s.dayOfWeek ++ ": "
    ++ fmtHM s.startTime ++ "-" ++ fmtHM s.endTime ++ " overlaps with "
    ++ formatTime e.startTime ++ "-" ++ formatTime e.endTime

/-- The duplicate-in-request message (admin.service.js lines 127-129). -/
def dupInReqMsg (s : ReqSlot) : String :=
  "Duplicate or overlapping slots in request for " ++ getDayName s.dayOfWeek

/-- The message of one `checkStudentConflicts` entry (lines 328-330). -/
def studentConflictMsg (ns : ReqSlot) (code : String) (ex : TimetableRow) :
    String :=
  getDayName ns.dayOfWeek ++ ": " ++ fmtHM ns.startTime ++ "-"
    ++ fmtHM ns.endTime ++ " conflicts with " ++ code ++ " ("
    ++ formatTime ex.startTime ++ "-" ++ formatTime ex.endTime ++ ")"

/-- The inner `for (const existingSlot of existingSlots)` loop of
`createTimetableSlots` (lines 102-119): the identical check is made
first, then the overlap check; the first failure throws. -/
def checkAgainstExisting (s : ReqSlot) : List TimetableRow → Option AdminError
  | [] => none
  | e :: rest =>
    let cmp := compareTimeSlots (reqToGen s) (rowToGen e)
    if cmp.isIdentical then some (.duplicateSlot (dupMsg s))
    else if cmp.overlaps then some (.timeConflict (conflictMsg s e))
    else checkAgainstExisting s rest

/-- The `for (let j = i + 1; ...)` loop of `createTimetableSlots`
(lines 122-131): identical or overlapping within the request throws. -/
def checkAgainstRest (s : ReqSlot) : List ReqSlot → Option AdminError
  | [] => none
  | o :: rest =>
    let cmp := compareTimeSlots (reqToGen s) (reqToGen o)
    if cmp.isIdentical || cmp.overlaps then
      some (.duplicateInRequest (dupInReqMsg s))
    else checkAgainstRest s rest

/-- The outer `for (let i = 0; ...)` structural-validation loop of
`createTimetableSlots` (lines 98-132). -/
def structuralCheck : List ReqSlot → List TimetableRow → Option AdminError
  | [], _ => none
  | s :: rest, existing =>
    match checkAgainstExisting s existing with
    | some e => some e
    | none =>
      match checkAgainstRest s rest with
      | some e => some e
      | none => structuralCheck rest existing

/-- `checkStudentConflicts` from `admin.service.js` lines 296-339:
for every student enrolled in the course, every proposed slot, every
*other* enrollment of the student, and every slot of that other course,
push one conflict entry whenever `compareTimeSlots(...).overlaps`. -/
def checkStudentConflicts (db : DB) (courseId : Nat)
    (newSlots : List ReqSlot) : List StudentConflict :=
  let students := db.students.filter (fun s =>
    db.enrollments.any (fun e => e.studentId == s.id && e.courseId == courseId))
  students.flatMap (fun st =>
    newSlots.flatMap (fun ns =>
      (db.enrollments.filter (fun e =>
          e.studentId == st.id && e.courseId != courseId)).flatMap (fun e =>
        match db.courses.find? (fun c => c.id == e.courseId) with
        | none => []
        | some course =>
          (courseTimetables db course.id).filterMap (fun ex =>
            if (compareTimeSlots (reqToGen ns) (rowToGen ex)).overlaps then
              some ⟨st.id, st.name, st.studentNumber, course.code,
                    studentConflictMsg ns course.code ex⟩
            else none))))

/-- The success payload of `createTimetableSlots` (the per-slot display
listing is derived presentation data and is not modelled). -/
structure CreateResult where
  courseId : Nat
  created : Nat
deriving DecidableEq, Repr

/-- `createTimetableSlots` from `admin.service.js` lines 82-171: verify
the course exists, run the structural checks, run the enrolled-student
guard, and only then insert the rows. -/
def createTimetableSlots (db : DB) (courseId : Nat)
    (timetableSlots : List ReqSlot) : DB × Except AdminError CreateResult :=
  match db.courses.find? (fun c => c.id == courseId) with
  | none => (db, .error .courseNotFound)
  | some _ =>
    let existingSlots := courseTimetables db courseId
    match structuralCheck timetableSlots existingSlots with
    | some e => (db, .error e)
    | none =>
      let conflicts := checkStudentConflicts db courseId timetableSlots
      if conflicts.isEmpty then
        ({ db with timetables := db.timetables
            ++ timetableSlots.map (fun s =>
              (⟨0, courseId, s.dayOfWeek, s.startTime, s.endTime⟩
                : TimetableRow)) },
         .ok ⟨courseId, timetableSlots.length⟩)
      else
        (db, .error (.timetableUpdateConflict conflicts))

/-! ## Admin service: single-slot update (admin.service.js lines 180-255) -/

/-- The optional fields of a slot-update request; present time fields are
`HH:mm` strings (modelled as minutes, as elsewhere). -/
structure UpdateData where
  dayOfWeek : Option Nat
  startTime : Option Nat
  endTime : Option Nat
deriving DecidableEq, Repr

/-- The `updatedSlot` object built by `updateTimetableSlot` (lines
200-205): each absent field falls back to the stored row's value, time
fields via `formatTime` (so back to minutes-of-day). -/
def updatedSlotOf (timetable : TimetableRow) (upd : UpdateData) : ReqSlot :=
  ⟨upd.dayOfWeek.getD timetable.dayOfWeek,
   upd.startTime.getD (timetable.startTime % 1440),
   upd.endTime.getD (timetable.endTime % 1440)⟩

/-- The conflict message of the update path (lines 220-223). -/
def updConflictMsg (s : ReqSlot) : String :=
  "Time conflict on " ++ getDayName s.dayOfWeek ++ ": "
    ++ fmtHM s.startTime ++ "-" ++ fmtHM s.endTime
    ++ " conflicts with existing schedule"

/-- The `for (const otherSlot of otherSlots)` loop of
`updateTimetableSlot` (lines 216-225): identical or overlapping against
any other slot of the same course throws one combined conflict error. -/
def checkOtherSlots (s : ReqSlot) : List TimetableRow → Option AdminError
  | [] => none
  | o :: rest =>
    let cmp := compareTimeSlots (reqToGen s) (rowToGen o)
    if cmp.isIdentical || cmp.overlaps then
      some (.timeConflict (updConflictMsg s))
    else checkOtherSlots s rest

/-- `updateTimetableSlot` from `admin.service.js` lines 180-255: look up
the slot (with its course) and the admin, enforce college access, check
the updated slot against the course's other slots and then against every
enrolled student's other courses, and only then write the row in place.
The display-formatted response body is not modelled; the updated row is
returned instead. -/
def updateTimetableSlot (db : DB) (adminId : Nat) (timetableId : Nat)
    (upd : UpdateData) : DB × Except AdminError TimetableRow :=
  match db.timetables.find? (fun t => t.id == timetableId) with
  | none => (db, .error .timetableSlotNotFound)
  | some timetable =>
    match db.courses.find? (fun c => c.id == timetable.courseId) with
    | none => (db, .error .courseNotFound)
    | some course =>
      match db.admins.find? (fun a => a.userId == adminId) with
      | none => (db, .error .adminRecordMissing)
      | some admin =>
        if course.collegeId ≠ admin.collegeId then
          (db, .error .collegeAccessDenied)
        else
          let updatedSlot := updatedSlotOf timetable upd
          let otherSlots := db.timetables.filter (fun t =>
            t.courseId == timetable.courseId && t.id != timetableId)
          match checkOtherSlots updatedSlot otherSlots with
          | some e => (db, .error e)
          | none =>
            let conflicts :=
              checkStudentConflicts db timetable.courseId [updatedSlot]
            if conflicts.isEmpty then
              let newRow : TimetableRow :=
                ⟨timetable.id, timetable.courseId, updatedSlot.dayOfWeek,
                 upd.startTime.getD timetable.startTime,
                 upd.endTime.getD timetable.endTime⟩
              ({ db with timetables := db.timetables.map (fun t =>
                  if t.id == timetableId then newRow else t) },
               .ok newRow)
            else
              (db, .error (.timetableUpdateConflict conflicts))

/-! ## Ordered-pair enumeration, for the self-conflict-mode claim -/

/-- All ordered pairs of list elements whose first component strictly
precedes the second, in the `for i; for j = i+1` iteration order. -/
def pairsLT : List α → List (α × α)
  | [] => []
  | a :: rest => rest.map (fun b => (a, b)) ++ pairsLT rest

/-- All index pairs `(i, j)` with `i < j < n`, in the same order. -/
def pairsIdx : Nat → List (Nat × Nat)
  | 0 => []
  | n + 1 =>
    (List.range n).map (fun j => (0, j + 1))
      ++ (pairsIdx n).map (fun p => (p.1 + 1, p.2 + 1))

/-! ## Theorems -/

/-- C2: for every pair of time slots the conflict predicate holds iff the
days are equal and the half-open intervals overlap (`s1 < e2 ∧ s2 < e1`,
on normalized minutes for `compareTimeSlots` and on the stored values for
the enrollment path's interval test); in particular a pair where one slot
ends exactly when the other starts is never reported as a conflict by
either check. -/
theorem conflict_predicate_halfopen :
    (∀ s1 s2 : GenSlot, (compareTimeSlots s1 s2).overlaps = true ↔
      (s1.dayOfWeek = s2.dayOfWeek
        ∧ timeToMinutes s1.startTime < timeToMinutes s2.endTime
        ∧ timeToMinutes s2.startTime < timeToMinutes s1.endTime))
    ∧ (∀ a b : IntervalSlot, slotClashB a b = true ↔
      (a.dayOfWeek = b.dayOfWeek ∧ a.startT < b.endT ∧ b.startT < a.endT))
    ∧ (∀ s1 s2 : GenSlot,
      timeToMinutes s2.startTime = timeToMinutes s1.endTime →
      (compareTimeSlots s1 s2).overlaps = false)
    ∧ (∀ a b : IntervalSlot, b.startT = a.endT → slotClashB a b = false) := by
  refine ⟨fun s1 s2 => ?_, fun a b => ?_, fun s1 s2 h => ?_, fun a b h => ?_⟩
  · unfold compareTimeSlots
    by_cases hd : s1.dayOfWeek = s2.dayOfWeek <;> simp [hd]
  · unfold slotClashB
    simp only [Bool.and_eq_true, decide_eq_true_eq, beq_iff_eq, and_assoc]
    tauto
  · unfold compareTimeSlots
    by_cases hd : s1.dayOfWeek = s2.dayOfWeek <;> simp [hd, h]
  · unfold slotClashB
    simp [h]

/-- C2 witness: back-to-back Monday slots (09:00-10:00 and 10:00-11:00)
are conflict-free under both checks. -/
theorem conflict_predicate_halfopen_witness :
    (compareTimeSlots ⟨1, .str 540, .str 600⟩ ⟨1, .str 600, .str 660⟩).overlaps
        = false
    ∧ slotClashB ⟨540, 600, 1, "A"⟩ ⟨600, 660, 1, "B"⟩ = false :=
  ⟨conflict_predicate_halfopen.2.2.1 ⟨1, .str 540, .str 600⟩
      ⟨1, .str 600, .str 660⟩ rfl,
   conflict_predicate_halfopen.2.2.2 ⟨540, 600, 1, "A"⟩
      ⟨600, 660, 1, "B"⟩ rfl⟩

/-- C8: the overlap decisions of the two call sites are NOT the same
relation on stored slots.  Course A's slot was stored on a later calendar
day (absolute minutes 2010-2070, i.e. 09:30-10:30 on the second day) and
course B's slot on the first day (540-600, i.e. 09:00-10:00).  The
enrollment path, comparing full stored date-times, reports no conflict
(both the older helper and the `Interval.overlaps` test), while the admin
path, normalizing each value to minutes-since-midnight, reports an
overlap of 09:30-10:30 with 09:00-10:00. -/
theorem overlap_rule_divergence :
    checkTimetableConflictsHelper
        [⟨2, "B", "Course B", 1, [⟨2, 2, 1, 540, 600⟩]⟩]
        [⟨1, "A", "Course A", 1, [⟨1, 1, 1, 2010, 2070⟩]⟩] = []
    ∧ slotClashB ⟨2010, 2070, 1, "A"⟩ ⟨540, 600, 1, "B"⟩ = false
    ∧ (compareTimeSlots (rowToGen ⟨1, 1, 1, 2010, 2070⟩)
        (rowToGen ⟨2, 2, 1, 540, 600⟩)).overlaps = true
    ∧ timeToMinutes (.date 2010) = 570 ∧ timeToMinutes (.date 2070) = 630
    ∧ timeToMinutes (.date 540) = 540 ∧ timeToMinutes (.date 600) = 600 := by
  decide

/-- C7: for both timetable mutations — adding slots and editing a single
slot — if the target resolves, the proposed slot(s) pass the course-local
structural checks, and some enrolled student's other course has a slot
overlapping a proposed slot (`checkStudentConflicts` is non-empty), the
mutation fails with `TimetableUpdateConflict` carrying exactly that
per-student conflict list, and the stored timetable is returned
unchanged. -/
theorem timetable_mutation_guard :
    (∀ (db : DB) (courseId : Nat) (slots : List ReqSlot) (course : Course),
      db.courses.find? (fun c => c.id == courseId) = some course →
      structuralCheck slots (courseTimetables db courseId) = none →
      checkStudentConflicts db courseId slots ≠ [] →
      createTimetableSlots db courseId slots
        = (db, .error (.timetableUpdateConflict
            (checkStudentConflicts db courseId slots))))
    ∧ (∀ (db : DB) (adminId timetableId : Nat) (upd : UpdateData)
        (timetable : TimetableRow) (course : Course) (admin : AdminRec),
      db.timetables.find? (fun t => t.id == timetableId) = some timetable →
      db.courses.find? (fun c => c.id == timetable.courseId) = some course →
      db.admins.find? (fun a => a.userId == adminId) = some admin →
      course.collegeId = admin.collegeId →
      checkOtherSlots (updatedSlotOf timetable upd)
        (db.timetables.filter (fun t =>
          t.courseId == timetable.courseId && t.id != timetableId)) = none →
      checkStudentConflicts db timetable.courseId
        [updatedSlotOf timetable upd] ≠ [] →
      updateTimetableSlot db adminId timetableId upd
        = (db, .error (.timetableUpdateConflict
            (checkStudentConflicts db timetable.courseId
              [updatedSlotOf timetable upd])))) := by
  constructor
  · intro db courseId slots course hc hstruct hconf
    unfold createTimetableSlots
    rw [hc]
    simp only [hstruct]
    rw [if_neg]
    simp [List.isEmpty_iff, hconf]
  · intro db adminId timetableId upd timetable course admin ht hc ha hcol
      hother hconf
    unfold updateTimetableSlot
    simp only [ht, hc, ha]
    simp [hcol, hother, List.isEmpty_iff, hconf]

/-- C7 witness, add path: student S is enrolled in courses A and B; B
occupies Monday 09:00-10:00; proposing Monday 09:30-10:30 for A fails
with a `TimetableUpdateConflict` naming S and B, and the store is
unchanged.  Edit path: moving A's stored Monday 09:00-10:00 slot (row 1)
to 09:30-10:30 fails the same way. -/
theorem timetable_mutation_guard_witness :
    (createTimetableSlots
        ⟨[⟨10, 100, "S", "SN1", 1⟩],
         [⟨1, "A", "Course A", 1⟩, ⟨2, "B", "Course B", 1⟩],
         [⟨2, 2, 1, 540, 600⟩], [⟨10, 2⟩, ⟨10, 1⟩], []⟩ 1 [⟨1, 570, 630⟩]
      = (⟨[⟨10, 100, "S", "SN1", 1⟩],
          [⟨1, "A", "Course A", 1⟩, ⟨2, "B", "Course B", 1⟩],
          [⟨2, 2, 1, 540, 600⟩], [⟨10, 2⟩, ⟨10, 1⟩], []⟩,
         .error (.timetableUpdateConflict
          (checkStudentConflicts
            ⟨[⟨10, 100, "S", "SN1", 1⟩],
             [⟨1, "A", "Course A", 1⟩, ⟨2, "B", "Course B", 1⟩],
             [⟨2, 2, 1, 540, 600⟩], [⟨10, 2⟩, ⟨10, 1⟩], []⟩
            1 [⟨1, 570, 630⟩]))))
    ∧ (updateTimetableSlot
        ⟨[⟨10, 100, "S", "SN1", 1⟩],
         [⟨1, "A", "Course A", 1⟩, ⟨2, "B", "Course B", 1⟩],
         [⟨1, 1, 1, 540, 600⟩, ⟨2, 2, 1, 540, 600⟩],
         [⟨10, 1⟩, ⟨10, 2⟩], [⟨200, 1⟩]⟩ 200 1 ⟨none, some 570, some 630⟩
      = (⟨[⟨10, 100, "S", "SN1", 1⟩],
          [⟨1, "A", "Course A", 1⟩, ⟨2, "B", "Course B", 1⟩],
          [⟨1, 1, 1, 540, 600⟩, ⟨2, 2, 1, 540, 600⟩],
          [⟨10, 1⟩, ⟨10, 2⟩], [⟨200, 1⟩]⟩,
         .error (.timetableUpdateConflict
          (checkStudentConflicts
            ⟨[⟨10, 100, "S", "SN1", 1⟩],
             [⟨1, "A", "Course A", 1⟩, ⟨2, "B", "Course B", 1⟩],
             [⟨1, 1, 1, 540, 600⟩, ⟨2, 2, 1, 540, 600⟩],
             [⟨10, 1⟩, ⟨10, 2⟩], [⟨200, 1⟩]⟩
            1 [updatedSlotOf ⟨1, 1, 1, 540, 600⟩
                ⟨none, some 570, some 630⟩])))) :=
  ⟨timetable_mutation_guard.1 _ 1 [⟨1, 570, 630⟩] ⟨1, "A", "Course A", 1⟩
      (by decide) (by decide) (by decide),
   timetable_mutation_guard.2 _ 200 1 ⟨none, some 570, some 630⟩
      ⟨1, 1, 1, 540, 600⟩ ⟨1, "A", "Course A", 1⟩ ⟨200, 1⟩
      (by decide) (by decide) (by decide) (by decide) (by decide)
      (by decide)⟩

/-- C1: whenever the student resolves, all requested course ids resolve,
no college mismatch exists, and the merged conflict list (internal plus
external, `enrollConflicts`) is non-empty, `enrollInCourses` fails with
`TimetableClash` carrying exactly that conflict list and returns the
store unchanged: no enrollment row is written for any requested course. -/
theorem enroll_clash_atomic (db : DB) (userId : Nat) (courseIds : List Nat)
    (student : StudentRec)
    (hs : findStudent db userId = some student)
    (hlen : (requestedCoursesOf db courseIds).length = courseIds.length)
    (hcol : ∀ c ∈ requestedCoursesOf db courseIds,
      c.collegeId = student.collegeId)
    (hconf : enrollConflicts db student courseIds ≠ []) :
    enrollInCourses db userId courseIds
      = (db, .error (.timetableClash (enrollConflicts db student courseIds))) := by
  unfold enrollInCourses
  rw [hs]
  simp only [hlen, ne_eq, not_true_eq_false, if_false, ite_not]
  have hfind : (requestedCoursesOf db courseIds).find?
      (fun c => decide ¬c.collegeId = student.collegeId) = none := by
    rw [List.find?_eq_none]
    intro c hc
    simp [hcol c hc]
  have hne : (newCoursesOf db student courseIds).isEmpty = false := by
    rcases h : (newCoursesOf db student courseIds).isEmpty with _ | _
    · rfl
    · exact absurd (by
        unfold enrollConflicts findTimetableConflicts flatIntervals
        rw [List.isEmpty_iff.mp h]
        simp [internalConflicts, externalConflicts]) hconf
  rw [hfind]
  simp [hne, List.isEmpty_iff, hconf]

/-- C1 witness: a student enrolled in B (Mon 09:00-10:00) requesting A
(Mon 09:30-10:30) gets a `TimetableClash` and the store is unchanged. -/
theorem enroll_clash_atomic_witness :
    enrollInCourses
        ⟨[⟨10, 100, "S", "SN1", 1⟩],
         [⟨1, "A", "Course A", 1⟩, ⟨2, "B", "Course B", 1⟩],
         [⟨1, 1, 1, 570, 630⟩, ⟨2, 2, 1, 540, 600⟩], [⟨10, 2⟩], []⟩ 100 [1]
      = (⟨[⟨10, 100, "S", "SN1", 1⟩],
          [⟨1, "A", "Course A", 1⟩, ⟨2, "B", "Course B", 1⟩],
          [⟨1, 1, 1, 570, 630⟩, ⟨2, 2, 1, 540, 600⟩], [⟨10, 2⟩], []⟩,
         .error (.timetableClash
          (enrollConflicts
            ⟨[⟨10, 100, "S", "SN1", 1⟩],
             [⟨1, "A", "Course A", 1⟩, ⟨2, "B", "Course B", 1⟩],
             [⟨1, 1, 1, 570, 630⟩, ⟨2, 2, 1, 540, 600⟩], [⟨10, 2⟩], []⟩
            ⟨10, 100, "S", "SN1", 1⟩ [1]))) :=
  enroll_clash_atomic _ 100 [1] ⟨10, 100, "S", "SN1", 1⟩ (by decide)
    (by decide) (by decide) (by decide)

/-- C3: whenever the student resolves, every requested id resolves, and
some requested course belongs to a different college than the student,
`enrollInCourses` fails with `CollegeMismatch` — no hypothesis about
timetable conflicts is needed — and the store is returned unchanged. -/
theorem enroll_college_scoping (db : DB) (userId : Nat)
    (courseIds : List Nat) (student : StudentRec)
    (hs : findStudent db userId = some student)
    (hlen : (requestedCoursesOf db courseIds).length = courseIds.length)
    (hmis : ∃ c ∈ requestedCoursesOf db courseIds,
      c.collegeId ≠ student.collegeId) :
    enrollInCourses db userId courseIds
      = (db, .error .collegeMismatch) := by
  unfold enrollInCourses
  rw [hs]
  simp only [hlen, ne_eq, not_true_eq_false, if_false, ite_not]
  have hfind : ((requestedCoursesOf db courseIds).find?
      (fun c => decide ¬c.collegeId = student.collegeId)).isSome = true := by
    rw [List.find?_isSome]
    rcases hmis with ⟨c, hc, hne⟩
    exact ⟨c, hc, by simpa using hne⟩
  rw [if_pos hfind]

/-- C3 witness: requesting course C of college 2 as a student of college 1
fails with `CollegeMismatch` and leaves the store unchanged. -/
theorem enroll_college_scoping_witness :
    enrollInCourses
        ⟨[⟨10, 100, "S", "SN1", 1⟩],
         [⟨1, "A", "Course A", 1⟩, ⟨3, "C", "Course C", 2⟩],
         [⟨1, 1, 1, 570, 630⟩], [], []⟩ 100 [3]
      = (⟨[⟨10, 100, "S", "SN1", 1⟩],
          [⟨1, "A", "Course A", 1⟩, ⟨3, "C", "Course C", 2⟩],
          [⟨1, 1, 1, 570, 630⟩], [], []⟩, .error .collegeMismatch) :=
  enroll_college_scoping _ 100 [3] ⟨10, 100, "S", "SN1", 1⟩ (by decide)
    (by decide) ⟨⟨3, "C", "Course C", 2⟩, by decide, by decide⟩

/-! ### Counting helpers for the not-found / idempotence claims -/

/-- Projecting ids out of the id-filtered course list. -/
theorem map_id_filter_contains (cs : List Course) (ids : List Nat) :
    (cs.filter (fun c => ids.contains c.id)).map (fun c => c.id)
      = (cs.map (fun c => c.id)).filter (fun i => ids.contains i) := by
  induction cs with
  | nil => rfl
  | cons a t ih =>
    by_cases h : a.id ∈ ids <;> simp [h] <;> simpa using ih

/-- The ids of the requested courses, as a filter of the stored ids. -/
theorem requested_ids_eq (db : DB) (ids : List Nat) :
    (requestedCoursesOf db ids).map (fun c => c.id)
      = (db.courses.map (fun c => c.id)).filter (fun i => ids.contains i) :=
  map_id_filter_contains db.courses ids

/-- Membership in the requested-courses list. -/
theorem mem_requestedCoursesOf (db : DB) (ids : List Nat) (c : Course) :
    c ∈ requestedCoursesOf db ids ↔ c ∈ db.courses ∧ c.id ∈ ids := by
  simp [requestedCoursesOf, List.mem_filter]

/-- A duplicate-free list of naturals contained in `ids` but avoiding a
member `x` of `ids` is strictly shorter than `ids`. -/
theorem nodup_subset_avoid_length (rids ids : List Nat) (x : Nat)
    (hnd : rids.Nodup) (hsub : ∀ i ∈ rids, i ∈ ids)
    (hx : x ∈ ids) (hxr : x ∉ rids) :
    rids.length + 1 ≤ ids.length := by
  have h1 : rids.length = rids.toFinset.card :=
    (List.toFinset_card_of_nodup hnd).symm
  have h2 : insert x rids.toFinset ⊆ ids.toFinset := by
    intro i hi
    rcases Finset.mem_insert.mp hi with h | h
    · subst h
      exact List.mem_toFinset.mpr hx
    · exact List.mem_toFinset.mpr (hsub i (List.mem_toFinset.mp h))
  have h3 : rids.toFinset.card + 1 = (insert x rids.toFinset).card :=
    (Finset.card_insert_of_not_mem (by
      intro h
      exact hxr (List.mem_toFinset.mp h))).symm
  calc rids.length + 1 = (insert x rids.toFinset).card := by rw [h1, h3]
    _ ≤ ids.toFinset.card := Finset.card_le_card h2
    _ ≤ ids.length := List.toFinset_card_le ids

/-- If some requested id resolves to no stored course, the Prisma result
is strictly shorter than the request (the `findMany` length test fires). -/
theorem requested_shorter_of_missing (db : DB) (ids : List Nat) (x : Nat)
    (hdb : (db.courses.map (fun c => c.id)).Nodup)
    (hx : x ∈ ids) (hmiss : x ∉ db.courses.map (fun c => c.id)) :
    (requestedCoursesOf db ids).length ≠ ids.length := by
  have hlen : (requestedCoursesOf db ids).length
      = ((requestedCoursesOf db ids).map (fun c => c.id)).length := by
    simp
  rw [requested_ids_eq] at hlen
  have hcard := nodup_subset_avoid_length
    ((db.courses.map (fun c => c.id)).filter (fun i => ids.contains i)) ids x
    (hdb.filter _)
    (by
      intro i hi
      have := (List.mem_filter.mp hi).2
      simpa using this)
    hx
    (by
      intro hxr
      exact hmiss (List.mem_of_mem_filter hxr))
  omega

/-- If every requested id resolves and the request has no duplicates, the
Prisma result has exactly the request's length. -/
theorem requested_length_eq_of_all_found (db : DB) (ids : List Nat)
    (hdb : (db.courses.map (fun c => c.id)).Nodup)
    (hids : ids.Nodup)
    (hres : ∀ i ∈ ids, i ∈ db.courses.map (fun c => c.id)) :
    (requestedCoursesOf db ids).length = ids.length := by
  have hlen : (requestedCoursesOf db ids).length
      = ((requestedCoursesOf db ids).map (fun c => c.id)).length := by
    simp
  rw [requested_ids_eq] at hlen
  rw [hlen]
  have hperm : List.Perm ((db.courses.map (fun c => c.id)).filter
      (fun i => ids.contains i)) ids := by
    rw [List.perm_ext_iff_of_nodup (hdb.filter _) hids]
    intro i
    constructor
    · intro hi
      have := (List.mem_filter.mp hi).2
      simpa using this
    · intro hi
      exact List.mem_filter.mpr ⟨hres i hi, by simpa using hi⟩
  exact hperm.length_eq

/-- If every requested id resolves but the request repeats an id, the
Prisma result is strictly shorter than the request. -/
theorem requested_shorter_of_dup (db : DB) (ids : List Nat)
    (hdb : (db.courses.map (fun c => c.id)).Nodup)
    (hdup : ¬ ids.Nodup)
    (hres : ∀ i ∈ ids, i ∈ db.courses.map (fun c => c.id)) :
    (requestedCoursesOf db ids).length ≠ ids.length := by
  have hlen : (requestedCoursesOf db ids).length
      = ((requestedCoursesOf db ids).map (fun c => c.id)).length := by
    simp
  rw [requested_ids_eq] at hlen
  have hperm : List.Perm ((db.courses.map (fun c => c.id)).filter
      (fun i => ids.contains i)) ids.dedup := by
    rw [List.perm_ext_iff_of_nodup (hdb.filter _) ids.nodup_dedup]
    intro i
    rw [List.mem_dedup]
    constructor
    · intro hi
      have := (List.mem_filter.mp hi).2
      simpa using this
    · intro hi
      exact List.mem_filter.mpr ⟨hres i hi, by simpa using hi⟩
  have hlt : ids.dedup.length < ids.length := by
    rcases Nat.lt_or_ge ids.dedup.length ids.length with h | h
    · exact h
    · exact absurd (ids.dedup_sublist.eq_of_length
        (Nat.le_antisymm (ids.dedup_sublist.length_le) h) ▸ ids.nodup_dedup)
        hdup
  rw [hlen, hperm.length_eq]
  omega

/-- C4: if some requested course id resolves to no stored course, then
(assuming stored course ids are unique) `enrollInCourses` fails with the
not-found error whose detail list is exactly the requested ids that do
not resolve — every listed id is a non-resolving requested id and every
non-resolving requested id is listed — and the store is unchanged. -/
theorem enroll_not_found_names_missing (db : DB) (userId : Nat)
    (courseIds : List Nat) (student : StudentRec) (x : Nat)
    (hs : findStudent db userId = some student)
    (hdb : (db.courses.map (fun c => c.id)).Nodup)
    (hx : x ∈ courseIds) (hmiss : x ∉ db.courses.map (fun c => c.id)) :
    enrollInCourses db userId courseIds
      = (db, .error (.coursesNotFound (notFoundIdsOf db courseIds)))
    ∧ ∀ i, i ∈ notFoundIdsOf db courseIds
        ↔ (i ∈ courseIds ∧ i ∉ db.courses.map (fun c => c.id)) := by
  constructor
  · have hne := requested_shorter_of_missing db courseIds x hdb hx hmiss
    unfold enrollInCourses
    rw [hs]
    simp [hne]
  · intro i
    unfold notFoundIdsOf
    have hfound : ((requestedCoursesOf db courseIds).map
        (fun c => c.id)).contains i = true
        ↔ (i ∈ db.courses.map (fun c => c.id) ∧ i ∈ courseIds) := by
      rw [requested_ids_eq]
      simp [List.mem_filter]
    rw [List.mem_filter]
    simp only [Bool.not_eq_eq_eq_not, Bool.not_true]
    constructor
    · rintro ⟨hmem, hnc⟩
      refine ⟨hmem, fun hin => ?_⟩
      rw [Bool.eq_false_iff] at hnc
      exact hnc (hfound.mpr ⟨hin, hmem⟩)
    · rintro ⟨hmem, hnin⟩
      refine ⟨hmem, ?_⟩
      rw [Bool.eq_false_iff]
      intro hc
      exact hnin (hfound.mp hc).1

/-- C4 witness: requesting `[1, 9]` when only course 1 exists fails with
not-found naming exactly `9`, and the store is unchanged. -/
theorem enroll_not_found_names_missing_witness :
    enrollInCourses
        ⟨[⟨10, 100, "S", "SN1", 1⟩], [⟨1, "A", "Course A", 1⟩], [], [], []⟩
        100 [1, 9]
      = (⟨[⟨10, 100, "S", "SN1", 1⟩], [⟨1, "A", "Course A", 1⟩], [], [], []⟩,
         .error (.coursesNotFound
          (notFoundIdsOf
            ⟨[⟨10, 100, "S", "SN1", 1⟩], [⟨1, "A", "Course A", 1⟩], [], [], []⟩
            [1, 9])))
    ∧ (9 ∈ notFoundIdsOf
          ⟨[⟨10, 100, "S", "SN1", 1⟩], [⟨1, "A", "Course A", 1⟩], [], [], []⟩
          [1, 9]
        ↔ (9 ∈ [1, 9]
            ∧ 9 ∉ (⟨[⟨10, 100, "S", "SN1", 1⟩], [⟨1, "A", "Course A", 1⟩],
                [], [], []⟩ : DB).courses.map (fun c => c.id))) :=
  ⟨(enroll_not_found_names_missing _ 100 [1, 9] ⟨10, 100, "S", "SN1", 1⟩ 9
      (by decide) (by decide) (by decide) (by decide)).1,
   (enroll_not_found_names_missing _ 100 [1, 9] ⟨10, 100, "S", "SN1", 1⟩ 9
      (by decide) (by decide) (by decide) (by decide)).2 9⟩

/-- Dropping already-enrolled ids from a request does not change the
new-course set the code goes on to process. -/
theorem newCoursesOf_drop_enrolled (db : DB) (st : StudentRec)
    (courseIds : List Nat) :
    newCoursesOf db st (courseIds.filter
      (fun i => !((enrolledIdsOf db st).contains i)))
      = newCoursesOf db st courseIds := by
  unfold newCoursesOf requestedCoursesOf
  rw [List.filter_filter, List.filter_filter]
  refine List.filter_congr ?_
  intro c _
  by_cases h : c.id ∈ enrolledIdsOf db st
  · simp [h]
  · simp [h, List.mem_filter]

/-- Dropping already-enrolled ids from a request does not change the
conflict list the code computes. -/
theorem enrollConflicts_drop_enrolled (db : DB) (st : StudentRec)
    (courseIds : List Nat) :
    enrollConflicts db st (courseIds.filter
      (fun i => !((enrolledIdsOf db st).contains i)))
      = enrollConflicts db st courseIds := by
  unfold enrollConflicts
  rw [newCoursesOf_drop_enrolled]

/-- On the success path, the rows written are exactly one per
not-already-enrolled requested course. -/
theorem enroll_commit_rows (db : DB) (userId : Nat) (courseIds : List Nat)
    (student : StudentRec)
    (hs : findStudent db userId = some student)
    (hlen : (requestedCoursesOf db courseIds).length = courseIds.length)
    (hcol : ∀ c ∈ requestedCoursesOf db courseIds,
      c.collegeId = student.collegeId)
    (hne : (newCoursesOf db student courseIds).isEmpty = false)
    (hnoc : enrollConflicts db student courseIds = []) :
    enrollInCourses db userId courseIds
      = ({ db with enrollments := db.enrollments
          ++ (newCoursesOf db student courseIds).map (fun c =>
            (⟨student.id, c.id⟩ : EnrollmentRow)) },
         .ok { enrolled := (newCoursesOf db student courseIds).map (fun c =>
                 (⟨c.id, c.code, c.name⟩ : EnrolledCourse)),
               message := none }) := by
  unfold enrollInCourses
  rw [hs]
  simp only [hlen, ne_eq, not_true_eq_false, if_false, ite_not]
  have hfind : (requestedCoursesOf db courseIds).find?
      (fun c => decide ¬c.collegeId = student.collegeId) = none := by
    rw [List.find?_eq_none]
    intro c hc
    simp [hcol c hc]
  rw [hfind]
  simp [hne, hnoc]

/-- C5: (1) a duplicate-free request in which every id resolves, belongs
to the student's college, and is already enrolled succeeds trivially
with an empty enrolled list and the informational message, leaving the
stored enrollment set unchanged (no duplicate row); (2) more generally,
already-enrolled courses in a mixed request are silently excluded from
conflict checking — dropping them from the request changes neither the
new-course set nor the computed conflict list; and (3) they are excluded
from the commit — a successful request appends one enrollment row per
requested course that was not already enrolled, and none of those
courses carries an already-enrolled id. -/
theorem enroll_idempotent :
    (∀ (db : DB) (userId : Nat) (courseIds : List Nat)
        (student : StudentRec),
      findStudent db userId = some student →
      (db.courses.map (fun c => c.id)).Nodup →
      courseIds.Nodup →
      (∀ i ∈ courseIds, i ∈ db.courses.map (fun c => c.id)) →
      (∀ c ∈ requestedCoursesOf db courseIds,
        c.collegeId = student.collegeId) →
      (∀ i ∈ courseIds, i ∈ enrolledIdsOf db student) →
      enrollInCourses db userId courseIds
        = (db, .ok { enrolled := [],
                     message := some
                       "All requested courses are already enrolled." }))
    ∧ (∀ (db : DB) (st : StudentRec) (courseIds : List Nat),
      newCoursesOf db st (courseIds.filter
        (fun i => !((enrolledIdsOf db st).contains i)))
        = newCoursesOf db st courseIds
      ∧ enrollConflicts db st (courseIds.filter
          (fun i => !((enrolledIdsOf db st).contains i)))
        = enrollConflicts db st courseIds)
    ∧ (∀ (db : DB) (userId : Nat) (courseIds : List Nat)
        (student : StudentRec),
      findStudent db userId = some student →
      (requestedCoursesOf db courseIds).length = courseIds.length →
      (∀ c ∈ requestedCoursesOf db courseIds,
        c.collegeId = student.collegeId) →
      (newCoursesOf db student courseIds).isEmpty = false →
      enrollConflicts db student courseIds = [] →
      enrollInCourses db userId courseIds
        = ({ db with enrollments := db.enrollments
            ++ (newCoursesOf db student courseIds).map (fun c =>
              (⟨student.id, c.id⟩ : EnrollmentRow)) },
           .ok { enrolled := (newCoursesOf db student courseIds).map (fun c =>
                   (⟨c.id, c.code, c.name⟩ : EnrolledCourse)),
                 message := none })
        ∧ ∀ c ∈ newCoursesOf db student courseIds,
            c.id ∉ enrolledIdsOf db student) := by
  refine ⟨fun db userId courseIds student hs hdb hids hres hcol henr => ?_,
    fun db st courseIds => ⟨newCoursesOf_drop_enrolled db st courseIds,
      enrollConflicts_drop_enrolled db st courseIds⟩,
    fun db userId courseIds student hs hlen hcol hne hnoc =>
      ⟨enroll_commit_rows db userId courseIds student hs hlen hcol hne hnoc,
       ?_⟩⟩
  · unfold enrollInCourses
    rw [hs]
    simp only [requested_length_eq_of_all_found db courseIds hdb hids hres,
      ne_eq, not_true_eq_false, if_false, ite_not]
    have hfind : (requestedCoursesOf db courseIds).find?
        (fun c => decide ¬c.collegeId = student.collegeId) = none := by
      rw [List.find?_eq_none]
      intro c hc
      simp [hcol c hc]
    rw [hfind]
    have hempty : (newCoursesOf db student courseIds).isEmpty = true := by
      rw [List.isEmpty_iff]
      unfold newCoursesOf
      rw [List.filter_eq_nil_iff]
      intro c hc
      have hid : c.id ∈ courseIds :=
        ((mem_requestedCoursesOf db courseIds c).mp hc).2
      simp [henr c.id hid]
    simp [hempty]
  · intro c hc
    have := (List.mem_filter.mp hc).2
    simpa using this

/-- C5 witness: re-requesting already-enrolled course B succeeds with an
empty enrolled list and the informational message, writing nothing; and
in the mixed request `[B, D]` with B already enrolled, B is excluded
from both the conflict check and the commit, which writes exactly one
row, for D. -/
theorem enroll_idempotent_witness :
    (enrollInCourses
        ⟨[⟨10, 100, "S", "SN1", 1⟩], [⟨2, "B", "Course B", 1⟩],
         [⟨2, 2, 1, 540, 600⟩], [⟨10, 2⟩], []⟩ 100 [2]
      = (⟨[⟨10, 100, "S", "SN1", 1⟩], [⟨2, "B", "Course B", 1⟩],
          [⟨2, 2, 1, 540, 600⟩], [⟨10, 2⟩], []⟩,
         .ok { enrolled := [],
               message := some
                 "All requested courses are already enrolled." }))
    ∧ (newCoursesOf
        ⟨[⟨10, 100, "S", "SN1", 1⟩],
         [⟨2, "B", "Course B", 1⟩, ⟨4, "D", "Course D", 1⟩],
         [⟨2, 2, 1, 540, 600⟩, ⟨4, 4, 1, 600, 660⟩], [⟨10, 2⟩], []⟩
        ⟨10, 100, "S", "SN1", 1⟩
        ([2, 4].filter (fun i => !((enrolledIdsOf
          ⟨[⟨10, 100, "S", "SN1", 1⟩],
           [⟨2, "B", "Course B", 1⟩, ⟨4, "D", "Course D", 1⟩],
           [⟨2, 2, 1, 540, 600⟩, ⟨4, 4, 1, 600, 660⟩], [⟨10, 2⟩], []⟩
          ⟨10, 100, "S", "SN1", 1⟩).contains i)))
        = newCoursesOf
          ⟨[⟨10, 100, "S", "SN1", 1⟩],
           [⟨2, "B", "Course B", 1⟩, ⟨4, "D", "Course D", 1⟩],
           [⟨2, 2, 1, 540, 600⟩, ⟨4, 4, 1, 600, 660⟩], [⟨10, 2⟩], []⟩
          ⟨10, 100, "S", "SN1", 1⟩ [2, 4])
    ∧ (enrollInCourses
        ⟨[⟨10, 100, "S", "SN1", 1⟩],
         [⟨2, "B", "Course B", 1⟩, ⟨4, "D", "Course D", 1⟩],
         [⟨2, 2, 1, 540, 600⟩, ⟨4, 4, 1, 600, 660⟩], [⟨10, 2⟩], []⟩
        100 [2, 4]
      = ({ (⟨[⟨10, 100, "S", "SN1", 1⟩],
           [⟨2, "B", "Course B", 1⟩, ⟨4, "D", "Course D", 1⟩],
           [⟨2, 2, 1, 540, 600⟩, ⟨4, 4, 1, 600, 660⟩], [⟨10, 2⟩], []⟩
            : DB) with
          enrollments := [⟨10, 2⟩]
            ++ (newCoursesOf
              ⟨[⟨10, 100, "S", "SN1", 1⟩],
               [⟨2, "B", "Course B", 1⟩, ⟨4, "D", "Course D", 1⟩],
               [⟨2, 2, 1, 540, 600⟩, ⟨4, 4, 1, 600, 660⟩], [⟨10, 2⟩], []⟩
              ⟨10, 100, "S", "SN1", 1⟩ [2, 4]).map (fun c =>
              (⟨10, c.id⟩ : EnrollmentRow)) },
         .ok { enrolled := (newCoursesOf
                 ⟨[⟨10, 100, "S", "SN1", 1⟩],
                  [⟨2, "B", "Course B", 1⟩, ⟨4, "D", "Course D", 1⟩],
                  [⟨2, 2, 1, 540, 600⟩, ⟨4, 4, 1, 600, 660⟩],
                  [⟨10, 2⟩], []⟩
                 ⟨10, 100, "S", "SN1", 1⟩ [2, 4]).map (fun c =>
                 (⟨c.id, c.code, c.name⟩ : EnrolledCourse)),
               message := none }))
    ∧ ((⟨4, "D", "Course D", 1⟩ : Course).id ∉ enrolledIdsOf
        ⟨[⟨10, 100, "S", "SN1", 1⟩],
         [⟨2, "B", "Course B", 1⟩, ⟨4, "D", "Course D", 1⟩],
         [⟨2, 2, 1, 540, 600⟩, ⟨4, 4, 1, 600, 660⟩], [⟨10, 2⟩], []⟩
        ⟨10, 100, "S", "SN1", 1⟩) :=
  ⟨enroll_idempotent.1
      ⟨[⟨10, 100, "S", "SN1", 1⟩], [⟨2, "B", "Course B", 1⟩],
       [⟨2, 2, 1, 540, 600⟩], [⟨10, 2⟩], []⟩
      100 [2] ⟨10, 100, "S", "SN1", 1⟩ (by decide)
      (by decide) (by decide) (by decide) (by decide) (by decide),
   (enroll_idempotent.2.1
      ⟨[⟨10, 100, "S", "SN1", 1⟩],
        [⟨2, "B", "Course B", 1⟩, ⟨4, "D", "Course D", 1⟩],
        [⟨2, 2, 1, 540, 600⟩, ⟨4, 4, 1, 600, 660⟩], [⟨10, 2⟩], []⟩
      ⟨10, 100, "S", "SN1", 1⟩ [2, 4]).1,
   (enroll_idempotent.2.2
      ⟨[⟨10, 100, "S", "SN1", 1⟩],
        [⟨2, "B", "Course B", 1⟩, ⟨4, "D", "Course D", 1⟩],
        [⟨2, 2, 1, 540, 600⟩, ⟨4, 4, 1, 600, 660⟩], [⟨10, 2⟩], []⟩
      100 [2, 4] ⟨10, 100, "S", "SN1", 1⟩
      (by decide) (by decide) (by decide) (by decide) (by decide)).1,
   (enroll_idempotent.2.2
      ⟨[⟨10, 100, "S", "SN1", 1⟩],
        [⟨2, "B", "Course B", 1⟩, ⟨4, "D", "Course D", 1⟩],
        [⟨2, 2, 1, 540, 600⟩, ⟨4, 4, 1, 600, 660⟩], [⟨10, 2⟩], []⟩
      100 [2, 4] ⟨10, 100, "S", "SN1", 1⟩
      (by decide) (by decide) (by decide) (by decide) (by decide)).2
     ⟨4, "D", "Course D", 1⟩ (by decide)⟩

/-- C10: a request that repeats an existing course id (assuming stored
course ids are unique and every requested id resolves) fails with the
course-not-found error even though every listed id exists, and the
error's list of missing ids is empty; nothing is enrolled. -/
theorem enroll_duplicate_ids_not_found (db : DB) (userId : Nat)
    (courseIds : List Nat) (student : StudentRec)
    (hs : findStudent db userId = some student)
    (hdb : (db.courses.map (fun c => c.id)).Nodup)
    (hdup : ¬ courseIds.Nodup)
    (hres : ∀ i ∈ courseIds, i ∈ db.courses.map (fun c => c.id)) :
    enrollInCourses db userId courseIds
      = (db, .error (.coursesNotFound [])) := by
  have hnil : notFoundIdsOf db courseIds = [] := by
    unfold notFoundIdsOf
    rw [List.filter_eq_nil_iff]
    intro i hi
    rcases List.mem_map.mp (hres i hi) with ⟨c, hcdb, hcid⟩
    have hcr : c ∈ requestedCoursesOf db courseIds :=
      (mem_requestedCoursesOf db courseIds c).mpr
        ⟨hcdb, by rw [hcid]; exact hi⟩
    have hmem : i ∈ (requestedCoursesOf db courseIds).map (fun c => c.id) :=
      List.mem_map.mpr ⟨c, hcr, hcid⟩
    simp [hmem]
  have hne := requested_shorter_of_dup db courseIds hdb hdup hres
  unfold enrollInCourses
  rw [hs]
  rw [hnil] at *
  simp [hne, hnil]

/-- C10 witness: requesting `[1, 1]` where course 1 exists fails with a
not-found error carrying an empty missing-id list. -/
theorem enroll_duplicate_ids_not_found_witness :
    enrollInCourses
        ⟨[⟨10, 100, "S", "SN1", 1⟩], [⟨1, "A", "Course A", 1⟩], [], [], []⟩
        100 [1, 1]
      = (⟨[⟨10, 100, "S", "SN1", 1⟩], [⟨1, "A", "Course A", 1⟩], [], [], []⟩,
         .error (.coursesNotFound [])) :=
  enroll_duplicate_ids_not_found _ 100 [1, 1] ⟨10, 100, "S", "SN1", 1⟩
    (by decide) (by decide) (by decide) (by decide)

/-! ### Pair-enumeration lemmas for the self-conflict-mode claim -/

/-- Mapping a function over positions recovers mapping over elements. -/
theorem map_getD_range {α β : Type} (l : List α) (f : α → β) (d : α) :
    (List.range l.length).map (fun i => f (l.getD i d)) = l.map f := by
  induction l with
  | nil => rfl
  | cons a t ih =>
    rw [List.length_cons, List.range_succ_eq_map, List.map_cons,
      List.map_map]
    refine congrArg (fun tl => f a :: tl) ?_
    have hcomp : ((fun i => f ((a :: t).getD i d)) ∘ Nat.succ)
        = fun i => f (t.getD i d) := by
      funext i
      simp [Function.comp, Nat.succ_eq_add_one, List.getD_cons_succ]
    rw [hcomp, ih]

/-- `pairsLT` is the canonical `i < j` index enumeration of the list. -/
theorem pairsLT_eq_idx {α : Type} [Inhabited α] (l : List α) :
    pairsLT l = (pairsIdx l.length).map
      (fun p => (l.getD p.1 default, l.getD p.2 default)) := by
  induction l with
  | nil => rfl
  | cons a t ih =>
    rw [pairsLT, List.length_cons, pairsIdx, List.map_append, List.map_map,
      List.map_map]
    refine congrArg₂ (· ++ ·) ?_ ?_
    · exact (map_getD_range t (fun b => (a, b)) default).symm
    · exact ih

/-- `count` of a value in `range`. -/
theorem count_range_eq (m n : Nat) :
    (List.range n).count m = if m < n then 1 else 0 := by
  induction n with
  | zero => simp
  | succ n ih =>
    rw [List.range_succ, List.count_append, ih]
    rcases Nat.lt_trichotomy m n with h | h | h
    · simp [h, Nat.lt_succ_of_lt h, Nat.ne_of_lt h]
    · subst h
      simp [Nat.lt_irrefl, Nat.lt_succ_self]
    · have h1 : ¬ m < n := Nat.not_lt.mpr (Nat.le_of_lt h)
      have h2 : ¬ m < n + 1 := Nat.not_lt.mpr h
      simp [h1, h2, Nat.ne_of_gt h]

/-- Every index pair `(i, j)` with `i < j < n` occurs in `pairsIdx n`
exactly once, and no other pair occurs at all. -/
theorem count_pairsIdx (n i j : Nat) :
    (pairsIdx n).count (i, j) = if i < j ∧ j < n then 1 else 0 := by
  induction n generalizing i j with
  | zero => simp [pairsIdx]
  | succ n ih =>
    rw [pairsIdx, List.count_append, List.count_eq_countP,
      List.count_eq_countP, List.countP_map, List.countP_map]
    rcases i with _ | i
    · rcases j with _ | j
      · simp [Function.comp]
      · have h1 : (List.countP
            ((fun x => x == (0, j + 1)) ∘ fun k => (0, k + 1))
            (List.range n)) = (List.range n).count j := by
          rw [List.count_eq_countP]
          refine List.countP_congr ?_
          intro k _
          simp [Function.comp]
        have h2 : (List.countP
            ((fun x => x == (0, j + 1)) ∘ fun p => (p.1 + 1, p.2 + 1))
            (pairsIdx n)) = 0 := by
          rw [List.countP_eq_zero]
          intro p _
          simp [Function.comp]
        rw [h1, h2, count_range_eq]
        rcases Nat.lt_or_ge j n with h | h
        · simp [h, Nat.succ_lt_succ h, Nat.zero_lt_succ]
        · have : ¬ j + 1 < n + 1 := by omega
          simp [Nat.not_lt.mpr h, this]
    · have h1 : (List.countP
          ((fun x => x == (i + 1, j)) ∘ fun k => (0, k + 1))
          (List.range n)) = 0 := by
        rw [List.countP_eq_zero]
        intro k _
        simp [Function.comp]
      rcases j with _ | j
      · have h2 : (List.countP
            ((fun x => x == (i + 1, 0)) ∘ fun p => (p.1 + 1, p.2 + 1))
            (pairsIdx n)) = 0 := by
          rw [List.countP_eq_zero]
          intro p _
          simp [Function.comp]
        simp [h1, h2]
      · have h2 : (List.countP
            ((fun x => x == (i + 1, j + 1)) ∘ fun p => (p.1 + 1, p.2 + 1))
            (pairsIdx n)) = (pairsIdx n).count (i, j) := by
          rw [List.count_eq_countP]
          refine List.countP_congr ?_
          intro p _
          simp [Function.comp, Prod.ext_iff]
        rw [h1, h2, ih]
        have hiff : (i < j ∧ j < n) ↔ (i + 1 < j + 1 ∧ j + 1 < n + 1) := by
          omega
        by_cases h : i < j ∧ j < n
        · simp [h, hiff.mp h]
        · simp [h, fun hc => h (hiff.mpr hc)]

/-- The internal-conflict loop, re-expressed over the canonical `i < j`
pair enumeration. -/
theorem internalConflicts_eq_pairs (L : List IntervalSlot) :
    internalConflicts L
      = ((pairsLT L).filter (fun p => slotClashB p.1 p.2)).map
          (fun p => mkInternal p.1 p.2) := by
  induction L with
  | nil => rfl
  | cons a t ih =>
    rw [internalConflicts, pairsLT, List.filter_append, List.map_append, ih]
    refine congrArg₂ (· ++ ·) ?_ rfl
    rw [List.filter_map, List.map_map]
    rfl

/-- C6: self-conflict mode reports each overlapping pair of flattened
request slots exactly once.  The INTERNAL conflict list equals the map of
the conflict constructor over the clash-filtered canonical `i < j` pair
list; that pair list is the image of the index enumeration `pairsIdx`,
in which every pair of positions `i < j` of the flattened request occurs
exactly once and no other index pair occurs. -/
theorem self_conflict_exactly_once :
    (∀ newCourses : List CourseT,
      internalConflicts (flatIntervals newCourses)
        = ((pairsLT (flatIntervals newCourses)).filter
            (fun p => slotClashB p.1 p.2)).map (fun p => mkInternal p.1 p.2))
    ∧ (∀ L : List IntervalSlot,
      pairsLT L = (pairsIdx L.length).map
        (fun p => (L.getD p.1 default, L.getD p.2 default)))
    ∧ (∀ n i j, (pairsIdx n).count (i, j)
        = if i < j ∧ j < n then 1 else 0) :=
  ⟨fun newCourses => internalConflicts_eq_pairs (flatIntervals newCourses),
   fun L => pairsLT_eq_idx L, count_pairsIdx⟩

/-! ### Duplicate-slot precedence lemmas -/

/-- A duplicate-slot message never equals an overlap-conflict message:
the two literal prefixes already differ at the fifth character. -/
theorem dupMsg_ne_conflictMsg (s s' : ReqSlot) (e' : TimetableRow) :
    dupMsg s ≠ conflictMsg s' e' := by
  intro h
  have hd := congrArg (fun str => List.take 5 str.data) h
  simp only [dupMsg, conflictMsg, String.data_append, List.append_assoc] at hd
  rw [List.take_append_of_le_length (by decide),
    List.take_append_of_le_length (by decide)] at hd
  exact absurd hd (by decide)

/-- If some existing slot is identical to the proposed slot, the
existing-slot loop fails (with one of its two errors). -/
theorem checkAgainstExisting_isSome_of_identical (s : ReqSlot)
    (existing : List TimetableRow)
    (h : ∃ e ∈ existing,
      (compareTimeSlots (reqToGen s) (rowToGen e)).isIdentical = true) :
    (checkAgainstExisting s existing).isSome = true := by
  induction existing with
  | nil => simp at h
  | cons e t ih =>
    rw [checkAgainstExisting]
    by_cases h1 : (compareTimeSlots (reqToGen s) (rowToGen e)).isIdentical
        = true
    · simp [h1]
    · by_cases h2 : (compareTimeSlots (reqToGen s) (rowToGen e)).overlaps
          = true
      · simp [h1, h2]
      · rcases h with ⟨e', he', hid⟩
        rcases List.mem_cons.mp he' with rfl | hmem
        · exact absurd hid h1
        · simp only [h1, h2, if_false, Bool.false_eq_true]
          exact ih ⟨e', hmem, hid⟩

/-- If some proposed slot is identical to some existing slot, the whole
structural check fails (with one of its errors). -/
theorem structuralCheck_isSome_of_identical (slots : List ReqSlot)
    (existing : List TimetableRow)
    (h : ∃ s ∈ slots, ∃ e ∈ existing,
      (compareTimeSlots (reqToGen s) (rowToGen e)).isIdentical = true) :
    (structuralCheck slots existing).isSome = true := by
  induction slots with
  | nil => simp at h
  | cons s rest ih =>
    rw [structuralCheck]
    rcases h with ⟨s', hs', e, he, hid⟩
    rcases List.mem_cons.mp hs' with hcase | hmem
    · rw [hcase] at hid
      have hsome := checkAgainstExisting_isSome_of_identical s existing
        ⟨e, he, hid⟩
      cases hca : checkAgainstExisting s existing with
      | some err => simp
      | none =>
        rw [hca] at hsome
        simp at hsome
    · cases hca : checkAgainstExisting s existing with
      | some err => simp
      | none =>
        cases hcr : checkAgainstRest s rest with
        | some err => simp
        | none => exact ih ⟨s', hmem, e, he, hid⟩

/-- C9: when a proposed slot is compared against the course's stored
slots, a structurally identical pair throws the duplicate-slot error with
its dedicated message — the identical check short-circuits the overlap
check for every such pair, even though an identical pair also overlaps —
the duplicate-slot error is distinct from the overlap-conflict error
(its message text always differs), and any request containing a slot
identical to an existing one is rejected by the structural check. -/
theorem duplicate_slot_precedence :
    (∀ (s : ReqSlot) (e : TimetableRow) (rest : List TimetableRow),
      (compareTimeSlots (reqToGen s) (rowToGen e)).isIdentical = true →
      checkAgainstExisting s (e :: rest) = some (.duplicateSlot (dupMsg s)))
    ∧ (∀ m1 m2, AdminError.duplicateSlot m1 ≠ AdminError.timeConflict m2)
    ∧ (∀ (s s' : ReqSlot) (e' : TimetableRow), dupMsg s ≠ conflictMsg s' e')
    ∧ (∀ (slots : List ReqSlot) (existing : List TimetableRow),
      (∃ s ∈ slots, ∃ e ∈ existing,
        (compareTimeSlots (reqToGen s) (rowToGen e)).isIdentical = true) →
      (structuralCheck slots existing).isSome = true) := by
  refine ⟨fun s e rest hid => ?_, fun m1 m2 => ?_, dupMsg_ne_conflictMsg,
    structuralCheck_isSome_of_identical⟩
  · rw [checkAgainstExisting]
    simp [hid]
  · intro h
    exact AdminError.noConfusion h

/-- C9 witness: proposing Monday 09:30-10:30 when that exact slot is
stored yields the duplicate-slot error (not the overlap error), and the
structural check rejects the request. -/
theorem duplicate_slot_precedence_witness :
    checkAgainstExisting ⟨1, 570, 630⟩ [⟨1, 1, 1, 570, 630⟩]
        = some (.duplicateSlot (dupMsg ⟨1, 570, 630⟩))
    ∧ dupMsg ⟨1, 570, 630⟩ ≠ conflictMsg ⟨1, 570, 630⟩ ⟨1, 1, 1, 540, 600⟩
    ∧ (structuralCheck [⟨1, 570, 630⟩] [⟨1, 1, 1, 570, 630⟩]).isSome = true :=
  ⟨duplicate_slot_precedence.1 ⟨1, 570, 630⟩ ⟨1, 1, 1, 570, 630⟩ [] (by decide),
   duplicate_slot_precedence.2.2.1 ⟨1, 570, 630⟩ ⟨1, 570, 630⟩
     ⟨1, 1, 1, 540, 600⟩,
   duplicate_slot_precedence.2.2.2 [⟨1, 570, 630⟩] [⟨1, 1, 1, 570, 630⟩]
     ⟨⟨1, 570, 630⟩, by decide, ⟨1, 1, 1, 570, 630⟩, by decide, by decide⟩⟩

end Enroll
